import Mathlib

/-!
Verification development for the form-courier contact-form gateway.

The Go sources are embedded shallowly:

- the token-bucket rate limiter (function Allow in the limiter file) becomes
  the pure state-passing function allow over an association list of buckets;
  time is modelled in nanoseconds as a natural number, and the elapsed-minutes
  computation int(now.Sub(b.ts).Minutes()) becomes truncated division by
  nsPerMinute (for non-negative elapsed time both truncate identically);
- verifyHMAC is embedded over a complete executable SHA-256 and HMAC-SHA256
  (the Go code calls the standard crypto library; the embedding implements
  FIPS 180-4 directly over Nat with explicit reduction modulo 2 to the 32 and
  is checked below against published test vectors);
- the HandleContact handler from the CORS step onward becomes handleCore and
  handleContact; the standard-library JSON and form decoders are parameters
  (dj, df), the SMTP send result is the parameter sendOk, and the raw request
  body is a list of bytes;
- the email regular expression of the source is embedded as the executable
  matcher emailRegexMatch together with a separate definition,
  emailSpecDescribed, that follows the words of the specification so the two
  can be compared.

Strings.ToLower and strings.TrimSpace are modelled on the character sets the
claims exercise (ASCII letters for the hex comparison; the Latin-1 white-space
set for trimming).
-/

/-! ## Token-bucket rate limiter (file with func Allow) -/

/-- One bucket: an integer token count and the last-refill timestamp,
mirroring the Go struct Bucket with fields tokens and ts. -/
structure Bucket where
  tokens : Int
  ts : Nat
deriving DecidableEq

/-- The mutable bucket map, modelled as an association list from composite
keys to buckets. -/
abbrev Buckets := List (String × Bucket)

/-- Map lookup. -/
def getBucket (k : String) : Buckets → Option Bucket
  | [] => none
  | (k0, b0) :: rest => if k0 == k then some b0 else getBucket k rest

/-- Map store (replace or insert). -/
def setBucket (k : String) (b : Bucket) : Buckets → Buckets
  | [] => [(k, b)]
  | (k0, b0) :: rest => if k0 == k then (k, b) :: rest else (k0, b0) :: setBucket k b rest

/-- Nanoseconds per minute: the fixed refill unit used by the source, which
computes int(now.Sub(b.ts).Minutes()). -/
def nsPerMinute : Nat := 60000000000

/-- The composite bucket key, site + vertical bar + ip, as in the source. -/
def bucketKey (site ip : String) : String := site ++ "|" ++ ip

/-- Embedding of func Allow(site, ip string, burst, refillMins int) bool.
The refillMins parameter is present in the Go signature but never used by the
body; the body refills by whole minutes elapsed. Returns the admission
decision together with the updated bucket map. -/
def allow (st : Buckets) (site ip : String) (burst refillMins : Int) (now : Nat) : Bool × Buckets :=
  match getBucket (bucketKey site ip) st with
  | none => (true, setBucket (bucketKey site ip) ⟨burst, now⟩ st)
  | some b =>
      let refills : Int := ((now - b.ts) / nsPerMinute : Nat)
      let b1 : Bucket := if 0 < refills then ⟨min (b.tokens + refills) burst, now⟩ else b
      if b1.tokens ≤ 0 then (false, setBucket (bucketKey site ip) b1 st)
      else (true, setBucket (bucketKey site ip) ⟨b1.tokens - 1, b1.ts⟩ st)

/-! ## Character classes, trimming, and the email pattern -/

/-- The character class matched by backslash-s in the Go regexp package:
tab, newline, form feed, carriage return, and space. -/
def regexSpaceChar (c : Char) : Bool :=
  c == '\t' || c == '\n' || c == Char.ofNat 12 || c == '\r' || c == ' '

/-- White space as trimmed by strings.TrimSpace (unicode.IsSpace), restricted
to the Latin-1 range: tab, newline, vertical tab, form feed, carriage return,
space, next line, and no-break space. Code points above U+00FF with the
Unicode space property exist but no claim here depends on them. -/
def goSpaceChar (c : Char) : Bool :=
  c == '\t' || c == '\n' || c == Char.ofNat 11 || c == Char.ofNat 12 ||
  c == '\r' || c == ' ' || c == Char.ofNat 133 || c == Char.ofNat 160

/-- Embedding of strings.TrimSpace: drop leading and trailing white space. -/
def trimSpaceGo (s : String) : String :=
  ⟨((s.data.dropWhile goSpaceChar).reverse.dropWhile goSpaceChar).reverse⟩

/-- A character admitted by the bracket class of the source regular expression
(neither the at sign nor white space). -/
def atomChar (c : Char) : Bool := !(c == '@') && !(regexSpaceChar c)

/-- True when some dot occurs at a position of the list that is neither the
first nor the last. Applied to the domain part it decides the sub-pattern
"one or more atom characters, a dot, one or more atom characters" once all
characters are known to be atom characters. -/
def dotBeforeLast : List Char → Bool
  | [] => false
  | [_] => false
  | c :: rest => c == '.' || dotBeforeLast rest

/-- Inner-dot test for a whole domain: a dot exists that is neither the first
nor the last character. -/
def hasInnerDot : List Char → Bool
  | [] => false
  | _ :: rest => dotBeforeLast rest

/-- Split a character list at the first at sign, returning the parts before
and after it; none when no at sign occurs. -/
def splitAtFirstAt : List Char → Option (List Char × List Char)
  | [] => none
  | c :: rest =>
      if c == '@' then some ([], rest)
      else match splitAtFirstAt rest with
           | none => none
           | some (l, d) => some (c :: l, d)

/-- Embedding of the source regular expression
caret [^@ space]+ at [^@ space]+ dot [^@ space]+ dollar (Go syntax, where the
class excludes the at sign and backslash-s). Because both character classes
exclude the at sign, a match forces exactly one at sign: the local part is
everything before the first at sign and must be non-empty atom characters, and
the domain is everything after it and must be non-empty atom characters
containing a dot that is neither its first nor its last character. -/
def emailRegexMatch (s : String) : Bool :=
  match splitAtFirstAt s.data with
  | some (l, d) => !l.isEmpty && l.all atomChar && !d.isEmpty && d.all atomChar && hasInnerDot d
  | none => false

/-- Modelled from the words of the specification and claim C5: a non-white
space, non-at local part, then the at sign, then a non-white space domain
containing at least one dot. This definition follows the informal description,
to be compared against emailRegexMatch. -/
def emailSpecDescribed (s : String) : Bool :=
  match splitAtFirstAt s.data with
  | some (l, d) => !l.isEmpty && l.all atomChar &&
      !d.isEmpty && d.all (fun c => !(regexSpaceChar c)) && d.contains '.'
  | none => false

/-- Declarative reading of the source regular expression, used to state the
amended claim C5: a non-empty all-atom local part, the at sign, then a domain
of the shape part1 ++ dot ++ part2 with both parts non-empty and every domain
character an atom character (so the domain contains a dot that is neither its
first nor its last character, and no at sign or white space anywhere). -/
def emailPatternProp (s : String) : Prop :=
  ∃ l d1 d2 : List Char, s.data = l ++ '@' :: (d1 ++ '.' :: d2) ∧
    l ≠ [] ∧ d1 ≠ [] ∧ d2 ≠ [] ∧
    (∀ c ∈ l, atomChar c = true) ∧ (∀ c ∈ d1 ++ '.' :: d2, atomChar c = true)

/-! ## SHA-256 and HMAC-SHA256 over Nat (FIPS 180-4, RFC 2104) -/

/-- Reduce modulo 2 to the 32. -/
def w32 (x : Nat) : Nat := x % 4294967296

/-- 32-bit modular addition. -/
def add32 (a b : Nat) : Nat := w32 (a + b)

/-- 32-bit right rotation. -/
def rotr32 (n x : Nat) : Nat := w32 ((x >>> n) + ((x % (2 ^ n)) * 2 ^ (32 - n)))

/-- 32-bit complement. -/
def not32 (x : Nat) : Nat := x ^^^ 4294967295

/-- Lower-case sigma 0 of FIPS 180-4. -/
def ssig0 (x : Nat) : Nat := (rotr32 7 x) ^^^ (rotr32 18 x) ^^^ (x >>> 3)

/-- Lower-case sigma 1 of FIPS 180-4. -/
def ssig1 (x : Nat) : Nat := (rotr32 17 x) ^^^ (rotr32 19 x) ^^^ (x >>> 10)

/-- Upper-case sigma 0 of FIPS 180-4. -/
def bsig0 (x : Nat) : Nat := (rotr32 2 x) ^^^ (rotr32 13 x) ^^^ (rotr32 22 x)

/-- Upper-case sigma 1 of FIPS 180-4. -/
def bsig1 (x : Nat) : Nat := (rotr32 6 x) ^^^ (rotr32 11 x) ^^^ (rotr32 25 x)

/-- Choice function. -/
def chF (x y z : Nat) : Nat := (x &&& y) ^^^ ((not32 x) &&& z)

/-- Majority function. -/
def majF (x y z : Nat) : Nat := (x &&& y) ^^^ (x &&& z) ^^^ (y &&& z)

/-- The 64 SHA-256 round constants (fractional cube roots of the first 64
primes). -/
def sha256K : List Nat := [1116352408, 1899447441, 3049323471, 3921009573, 961987163, 1508970993, 2453635748, 2870763221, 3624381080, 310598401, 607225278, 1426881987, 1925078388, 2162078206, 2614888103, 3248222580, 3835390401, 4022224774, 264347078, 604807628, 770255983, 1249150122, 1555081692, 1996064986, 2554220882, 2821834349, 2952996808, 3210313671, 3336571891, 3584528711, 113926993, 338241895, 666307205, 773529912, 1294757372, 1396182291, 1695183700, 1986661051, 2177026350, 2456956037, 2730485921, 2820302411, 3259730800, 3345764771, 3516065817, 3600352804, 4094571909, 275423344, 430227734, 506948616, 659060556, 883997877, 958139571, 1322822218, 1537002063, 1747873779, 1955562222, 2024104815, 2227730452, 2361852424, 2428436474, 2756734187, 3204031479, 3329325298]

/-- The initial SHA-256 state (fractional square roots of the first 8
primes). -/
def sha256H0 : List Nat := [1779033703, 3144134277, 1013904242, 2773480762, 1359893119, 2600822924, 528734635, 1541459225]

/-- Message-schedule extension: append the given number of derived words. -/
def extendW : Nat → List Nat → List Nat
  | 0, ws => ws
  | n + 1, ws =>
      let t := ws.length
      extendW n (ws ++ [w32 ((ssig1 (ws.getD (t - 2) 0)) + ws.getD (t - 7) 0 + (ssig0 (ws.getD (t - 15) 0)) + ws.getD (t - 16) 0)])

/-- One round of the compression function, folded over the round constant
paired with the schedule word. -/
def compressStep (st : List Nat) (kw : Nat × Nat) : List Nat :=
  match st with
  | [a, b, c, d, e, f, g, h] =>
      let t1 := w32 (h + bsig1 e + chF e f g + kw.1 + kw.2)
      let t2 := w32 (bsig0 a + majF a b c)
      [add32 t1 t2, a, b, c, add32 d t1, e, f, g]
  | other => other

/-- Compress one 16-word block into the running state. -/
def sha256Compress (H : List Nat) (block : List Nat) : List Nat :=
  let ws := extendW 48 block
  let st := (sha256K.zip ws).foldl compressStep H
  List.zipWith add32 H st

/-- Big-endian 8-byte encoding. -/
def be64 (n : Nat) : List Nat :=
  [n / 72057594037927936 % 256, n / 281474976710656 % 256, n / 1099511627776 % 256,
   n / 4294967296 % 256, n / 16777216 % 256, n / 65536 % 256, n / 256 % 256, n % 256]

/-- Big-endian 4-byte encoding. -/
def be32 (n : Nat) : List Nat := [n / 16777216 % 256, n / 65536 % 256, n / 256 % 256, n % 256]

/-- SHA-256 padding: a 128 byte, zero bytes to 56 modulo 64, then the bit
length in 8 big-endian bytes. -/
def sha256Pad (msg : List Nat) : List Nat :=
  let L := msg.length
  let k := (119 - L % 64) % 64
  msg ++ [128] ++ List.replicate k 0 ++ be64 (L * 8)

/-- Group bytes into big-endian 32-bit words. -/
def toWords : List Nat → List Nat
  | b0 :: b1 :: b2 :: b3 :: rest => (((b0 * 256 + b1) * 256 + b2) * 256 + b3) :: toWords rest
  | _ => []

/-- Group words into 16-word blocks. -/
def toBlocks : List Nat → List (List Nat)
  | w0 :: w1 :: w2 :: w3 :: w4 :: w5 :: w6 :: w7 :: w8 :: w9 :: w10 :: w11 :: w12 :: w13 :: w14 :: w15 :: rest =>
      [w0, w1, w2, w3, w4, w5, w6, w7, w8, w9, w10, w11, w12, w13, w14, w15] :: toBlocks rest
  | _ => []

/-- SHA-256 of a byte list, as 32 bytes. -/
def sha256 (msg : List Nat) : List Nat :=
  let bs := toBlocks (toWords (sha256Pad msg))
  let H := bs.foldl sha256Compress sha256H0
  (H.map be32).flatten

/-- HMAC-SHA256 (RFC 2104) with a 64-byte block size. -/
def hmacSha256 (key msg : List Nat) : List Nat :=
  let k0 := if 64 < key.length then sha256 key else key
  let k1 := k0 ++ List.replicate (64 - k0.length) 0
  sha256 ((k1.map (fun b => b ^^^ 92)) ++ sha256 ((k1.map (fun b => b ^^^ 54)) ++ msg))

/-- Lower-case hexadecimal digit. -/
def hexDigit (n : Nat) : Char := if n < 10 then Char.ofNat (48 + n) else Char.ofNat (87 + n)

/-- Lower-case hexadecimal encoding of a byte list, as produced by
hex.EncodeToString. -/
def hexEncode (bs : List Nat) : String :=
  ⟨(bs.map (fun b => [hexDigit (b / 16 % 16), hexDigit (b % 16)])).flatten⟩

/-- ASCII lower-casing of one character. -/
def lowChar (c : Char) : Char :=
  if 65 ≤ c.toNat ∧ c.toNat ≤ 90 then Char.ofNat (c.toNat + 32) else c

/-- Embedding of strings.ToLower restricted to ASCII letters, the alphabet of
hexadecimal signatures. -/
def asciiLower (s : String) : String := ⟨s.data.map lowChar⟩

/-- UTF-8 encoding of one character. -/
def utf8Char (c : Char) : List Nat :=
  let n := c.toNat
  if n < 128 then [n]
  else if n < 2048 then [192 + n / 64, 128 + n % 64]
  else if n < 65536 then [224 + n / 4096, 128 + n / 64 % 64, 128 + n % 64]
  else [240 + n / 262144, 128 + n / 4096 % 64, 128 + n / 64 % 64, 128 + n % 64]

/-- UTF-8 bytes of a string, the Go byte-slice conversion. -/
def utf8Bytes (s : String) : List Nat := (s.data.map utf8Char).flatten

/-- Embedding of func verifyHMAC(body, secret, hexSig): false when the secret
or the signature is empty; otherwise compare the lower-cased hex encoding of
HMAC-SHA256(body) keyed by the secret against the lower-cased provided
signature (hmac.Equal on equal-length byte slices is plain equality). -/
def verifyHMAC (body : List Nat) (secret hexSig : String) : Bool :=
  if (secret == "") || (hexSig == "") then false
  else
    let want := asciiLower (hexEncode (hmacSha256 (utf8Bytes secret) body))
    let hv := asciiLower hexSig
    want == hv

/-! ## The contact handler from the CORS step onward -/

/-- The decoded submission, mirroring struct ContactRequest; website is the
honeypot field. -/
structure ContactRequest where
  name : String
  email : String
  message : String
  website : String
deriving DecidableEq

/-- Per-site configuration, mirroring the fields of struct SiteCfg that the
handler reads (subjPre embeds the field named SubjectPre-fix in the source;
the SMTP override is subsumed by the sendOk parameter of the handler). -/
structure SiteCfg where
  key : String
  recipient : String
  allowedOrigins : List String
  subjPre : String
  secret : String
  fromAddr : String
deriving DecidableEq

/-- The composed outbound message, mirroring the fields assigned to the email
value in the handler. -/
structure EmailMsg where
  sender : String
  recipients : List String
  replyTo : List String
  subject : String
  text : String
deriving DecidableEq

/-- Compose the outbound message exactly as the handler does. -/
def buildEmail (cs : SiteCfg) (ip : String) (p : ContactRequest) : EmailMsg :=
  let subject := trimSpaceGo (cs.subjPre ++ " New contact")
  let msg := "Site: " ++ cs.key ++ "\nFrom: " ++ p.name ++ " <" ++ p.email ++ ">\nIP: " ++ ip
      ++ "\n\n" ++ p.message ++ "\n"
  ⟨cs.fromAddr, [cs.recipient], [p.name ++ " <" ++ p.email ++ ">"], subject, msg⟩

/-- The CORS step: when the site declares allowed origins and some entry
equals the request origin exactly, the origin is reflected in
Access-Control-Allow-Origin along with Vary: Origin; otherwise neither header
is set. Returns the pair of optional header values. -/
def corsHeaders (allowed : List String) (origin : String) : Option String × Option String :=
  if 0 < allowed.length && allowed.contains origin then (some origin, some ("Origin"))
  else (none, none)

/-- String has the given other string as an initial segment, as
strings.HasPre-fix does. -/
def hasPre (s p : String) : Bool := List.isPrefixOf p.data s.data

/-- Which arm of the content-type switch runs. -/
inductive DecodeBranch
  | json
  | form
  | unsupported
deriving DecidableEq

/-- The content-type switch of the handler: the JSON arm when the content type
starts with application/json and JSON is enabled; otherwise the form arm when
form decoding is enabled; otherwise the unsupported-media-type arm. -/
def selectBranch (ct : String) (allowJSON allowForm : Bool) : DecodeBranch :=
  if hasPre ct ("application/json") && allowJSON then DecodeBranch.json
  else if allowForm then DecodeBranch.form
  else DecodeBranch.unsupported

/-- The honeypot-and-validation condition of the handler, in source order:
non-empty honeypot, empty name, email failing the regular expression, or
message empty after trimming. -/
def validationRejects (p : ContactRequest) : Bool :=
  (p.website != "") || (p.name == "") || (!(emailRegexMatch p.email)) || (trimSpaceGo p.message == "")

/-- Everything the handler observably produces from the CORS step onward:
the HTTP status, the two optional CORS header values, the message handed to
the sender (when composition is reached), and the bucket map after the
admission check. -/
structure HandleResult where
  status : Nat
  acao : Option String
  vary : Option String
  outMail : Option EmailMsg
  stOut : Buckets

/-- The origin-independent part of the handler: admission, size ceiling,
optional signature check, decoding, validation, composition, and send. The
standard-library decoders are the parameters dj (JSON) and df (form, which in
Go also sees the content type), and the SMTP outcome is sendOk. Statuses are
the numeric codes of the source. -/
def handleCore (cs : SiteCfg) (siteKey : String) (burst rmins : Int) (maxBodyKB : Nat)
    (allowJSON allowForm : Bool)
    (dj : List Nat → Option ContactRequest)
    (df : String → List Nat → Option ContactRequest)
    (sendOk : Bool) (ip sig ct : String) (body : List Nat) (st : Buckets) (now : Nat) :
    Nat × Option EmailMsg × Buckets :=
  let r := allow st siteKey ip burst rmins now
  if !r.1 then (429, none, r.2)
  else if maxBodyKB * 1024 < body.length then (413, none, r.2)
  else if (cs.secret != "") && (!(verifyHMAC body cs.secret sig)) then (401, none, r.2)
  else
    let dec : Except Nat ContactRequest :=
      match selectBranch ct allowJSON allowForm with
      | DecodeBranch.json =>
          match dj body with
          | none => Except.error 400
          | some p => Except.ok p
      | DecodeBranch.form =>
          match df ct body with
          | none => Except.error 400
          | some p => Except.ok p
      | DecodeBranch.unsupported => Except.error 415
    match dec with
    | Except.error code => (code, none, r.2)
    | Except.ok p =>
        if validationRejects p then (400, none, r.2)
        else ((if sendOk then 200 else 500), some (buildEmail cs ip p), r.2)

/-- The handler from the CORS step onward: set the CORS headers from the
origin, then run the origin-independent pipeline. In the source the headers
are set on the response writer before any terminal rejection, so they
accompany every outcome. -/
def handleContact (cs : SiteCfg) (siteKey : String) (burst rmins : Int) (maxBodyKB : Nat)
    (allowJSON allowForm : Bool)
    (dj : List Nat → Option ContactRequest)
    (df : String → List Nat → Option ContactRequest)
    (sendOk : Bool) (origin ip sig ct : String) (body : List Nat) (st : Buckets) (now : Nat) :
    HandleResult :=
  let hd := corsHeaders cs.allowedOrigins origin
  let r := handleCore cs siteKey burst rmins maxBodyKB allowJSON allowForm dj df sendOk ip sig ct body st now
  ⟨r.1, hd.1, hd.2, r.2.1, r.2.2⟩

/-- The invariant of claim C9: every stored bucket holds between zero and
burst tokens. -/
def bucketsInv (B : Int) (st : Buckets) : Prop :=
  ∀ k b, getBucket k st = some b → 0 ≤ b.tokens ∧ b.tokens ≤ B

/-! ## Rate-limiter lemmas -/

/-- Lookup after store: the stored key reads back the stored bucket, any
other key is untouched. -/
theorem getBucket_setBucket (k k2 : String) (b : Bucket) (st : Buckets) :
    getBucket k2 (setBucket k b st) = if k = k2 then some b else getBucket k2 st := by
  induction st with
  | nil =>
      by_cases h : k = k2 <;> simp [setBucket, getBucket, h]
  | cons hd tl ih =>
      obtain ⟨k0, b0⟩ := hd
      by_cases h1 : k0 = k
      · subst h1
        by_cases h2 : k0 = k2 <;> simp [setBucket, getBucket, h2]
      · have h1b : (k0 == k) = false := beq_eq_false_iff_ne.mpr h1
        by_cases h3 : k0 = k2
        · subst h3
          have hkk : k ≠ k0 := fun h => h1 h.symm
          simp [setBucket, getBucket, h1b, hkk]
        · have h3b : (k0 == k2) = false := beq_eq_false_iff_ne.mpr h3
          simp [setBucket, getBucket, h1b, h3b, ih]

/-- An allow call touches only its own composite key: the stored bucket of
any other key is unchanged. -/
theorem allow_frame (st : Buckets) (s i k2 : String) (b r : Int) (n : Nat)
    (hne : bucketKey s i ≠ k2) :
    getBucket k2 (allow st s i b r n).2 = getBucket k2 st := by
  unfold allow
  cases hg : getBucket (bucketKey s i) st with
  | none => simp [getBucket_setBucket, hne]
  | some bk =>
      simp only []
      split <;> split <;> simp [getBucket_setBucket, hne]

/-- The admission decision depends on the map only through the bucket stored
at the own composite key. -/
theorem allow_fst_congr (st st2 : Buckets) (s i : String) (b r : Int) (n : Nat)
    (h : getBucket (bucketKey s i) st = getBucket (bucketKey s i) st2) :
    (allow st s i b r n).1 = (allow st2 s i b r n).1 := by
  unfold allow
  rw [h]
  cases getBucket (bucketKey s i) st2 with
  | none => rfl
  | some bk =>
      simp only []
      split <;> split <;> rfl

/-! ## Claim C9: token counts stay between 0 and burst -/

/-- Claim C9. For a fixed burst value B that is at least zero and supplied to
every call, one allow call preserves the invariant that every stored bucket
holds between 0 and B tokens: creation stores B tokens, the refill is capped
at B, and the decrement runs only on a strictly positive count. -/
theorem bucket_tokens_bounded (B : Int) (st : Buckets) (s i : String) (r : Int) (n : Nat)
    (hB : 0 ≤ B) (hst : bucketsInv B st) :
    bucketsInv B (allow st s i B r n).2 := by
  intro k b hk
  unfold allow at hk
  cases hg : getBucket (bucketKey s i) st with
  | none =>
      rw [hg] at hk
      simp only [getBucket_setBucket] at hk
      by_cases hke : bucketKey s i = k
      · rw [if_pos hke] at hk
        cases hk
        exact ⟨hB, le_refl B⟩
      · rw [if_neg hke] at hk
        exact hst k b hk
  | some bk =>
      have hbk := hst _ _ hg
      rw [hg] at hk
      simp only [] at hk
      have hrefills : (0 : Int) ≤ ((n - bk.ts) / nsPerMinute : Nat) := Int.natCast_nonneg _
      split at hk <;> split at hk <;>
        · simp only [getBucket_setBucket] at hk
          by_cases hke : bucketKey s i = k
          · rw [if_pos hke] at hk
            cases hk
            refine ⟨?_, ?_⟩ <;> simp only [inf_eq_min] at * <;> omega
          · rw [if_neg hke] at hk
            exact hst k b hk

/-! ## Claim C6: bucket independence -/

/-- Counterexample to claim C6 as stated. The pairs (a|b, c) and (a, b|c) are
distinct (tenant, client) pairs, yet concatenation with the vertical-bar
separator maps both to the composite key a|b|c, so they share one bucket:
with burst 1, two calls for the first pair exhaust the shared bucket and the
next call for the second pair is denied, although from the empty map a call
for the second pair alone is admitted. -/
theorem bucket_key_collision :
    (("a|b" : String) ≠ ("a" : String) ∨ ("c" : String) ≠ ("b|c" : String)) ∧
    (allow (allow (allow [] ("a|b") ("c") 1 1 0).2 ("a|b") ("c") 1 1 0).2 ("a") ("b|c") 1 1 0).1 = false ∧
    (allow [] ("a") ("b|c") 1 1 0).1 = true := by
  refine ⟨Or.inl (by decide), by decide, by decide⟩

/-- Claim C6, amended: independence holds between two (tenant, client) pairs
whenever their composite keys site ++ bar ++ ip differ (which the separator
guarantees only when neither component contains the bar character): an allow
call for the first pair leaves the bucket stored for the second pair
unchanged, and any subsequent admission decision for the second pair is as it
would have been without that call. -/
theorem bucket_independence_distinct_keys (st : Buckets) (s1 i1 s2 i2 : String)
    (b r : Int) (n : Nat) (b2 r2 : Int) (n2 : Nat)
    (hne : bucketKey s1 i1 ≠ bucketKey s2 i2) :
    getBucket (bucketKey s2 i2) (allow st s1 i1 b r n).2 = getBucket (bucketKey s2 i2) st ∧
    (allow (allow st s1 i1 b r n).2 s2 i2 b2 r2 n2).1 = (allow st s2 i2 b2 r2 n2).1 := by
  have hf := allow_frame st s1 i1 (bucketKey s2 i2) b r n hne
  exact ⟨hf, allow_fst_congr _ _ _ _ _ _ _ hf⟩

/-- Witness for the amended claim C6 at concrete distinct keys. -/
theorem bucket_independence_distinct_keys_witness :
    getBucket (bucketKey ("u") ("v")) (allow [] ("s") ("i") 3 1 0).2 =
      getBucket (bucketKey ("u") ("v")) ([] : Buckets) ∧
    (allow (allow [] ("s") ("i") 3 1 0).2 ("u") ("v") 3 1 0).1 = (allow [] ("u") ("v") 3 1 0).1 :=
  bucket_independence_distinct_keys [] ("s") ("i") ("u") ("v") 3 1 0 3 1 0 (by decide)

/-! ## Claim C1: admission sequence -/

/-- Counterexample to claim C1 as stated. Bucket creation does not consume a
token (the source stores tokens = burst and returns true), so with burst 2
the third immediate call is still admitted, not denied, and with burst 1 the
immediately repeated call is still admitted, not rate limited. -/
theorem rate_limit_sequence_claim_false :
    (allow (allow (allow [] ("t") ("c") 2 1 0).2 ("t") ("c") 2 1 0).2 ("t") ("c") 2 1 0).1 = true ∧
    (allow (allow [] ("t") ("c") 1 1 0).2 ("t") ("c") 1 1 0).1 = true := by
  exact ⟨by decide, by decide⟩

/-- Claim C1, amended as the code behaves (and as the repository test suite
expects): bucket creation initializes tokens = burst without consuming one,
so with burst 2 and the one-minute refill unit a sequence of three immediate
allow calls from the same (tenant, client) pair yields [admit, admit, admit],
a fourth immediate call is denied, and after waiting one full refill unit the
next call is admitted; with burst 1 the first and the immediately repeated
second call are admitted and the third is denied (429 at the handler). -/
theorem rate_limit_sequence_amended (site ip : String) (now : Nat) :
    ((allow [] site ip 2 1 now).1 = true ∧
     (allow (allow [] site ip 2 1 now).2 site ip 2 1 now).1 = true ∧
     (allow (allow (allow [] site ip 2 1 now).2 site ip 2 1 now).2 site ip 2 1 now).1 = true ∧
     (allow (allow (allow (allow [] site ip 2 1 now).2 site ip 2 1 now).2 site ip 2 1 now).2 site ip 2 1 now).1 = false ∧
     (allow (allow (allow (allow (allow [] site ip 2 1 now).2 site ip 2 1 now).2 site ip 2 1 now).2 site ip 2 1 now).2 site ip 2 1 (now + nsPerMinute)).1 = true) ∧
    ((allow [] site ip 1 1 now).1 = true ∧
     (allow (allow [] site ip 1 1 now).2 site ip 1 1 now).1 = true ∧
     (allow (allow (allow [] site ip 1 1 now).2 site ip 1 1 now).2 site ip 1 1 now).1 = false) := by
  have hdiv0 : ((now - now : Nat) : Nat) / nsPerMinute = 0 := by
    simp [Nat.sub_self]
  have hdiv1 : nsPerMinute / nsPerMinute = 1 := Nat.div_self (by norm_num [nsPerMinute])
  have e1 : allow [] site ip 2 1 now = (true, [(bucketKey site ip, ⟨2, now⟩)]) := by
    simp [allow, getBucket, setBucket]
  have e2 : allow [(bucketKey site ip, ⟨2, now⟩)] site ip 2 1 now
      = (true, [(bucketKey site ip, ⟨1, now⟩)]) := by
    simp [allow, getBucket, setBucket, hdiv0]
  have e3 : allow [(bucketKey site ip, ⟨1, now⟩)] site ip 2 1 now
      = (true, [(bucketKey site ip, ⟨0, now⟩)]) := by
    simp [allow, getBucket, setBucket, hdiv0]
  have e4 : allow [(bucketKey site ip, ⟨0, now⟩)] site ip 2 1 now
      = (false, [(bucketKey site ip, ⟨0, now⟩)]) := by
    simp [allow, getBucket, setBucket, hdiv0]
  have e5 : allow [(bucketKey site ip, ⟨0, now⟩)] site ip 2 1 (now + nsPerMinute)
      = (true, [(bucketKey site ip, ⟨0, now + nsPerMinute⟩)]) := by
    simp [allow, getBucket, setBucket, hdiv1]
  have f1 : allow [] site ip 1 1 now = (true, [(bucketKey site ip, ⟨1, now⟩)]) := by
    simp [allow, getBucket, setBucket]
  have f2 : allow [(bucketKey site ip, ⟨1, now⟩)] site ip 1 1 now
      = (true, [(bucketKey site ip, ⟨0, now⟩)]) := by
    simp [allow, getBucket, setBucket, hdiv0]
  have f3 : allow [(bucketKey site ip, ⟨0, now⟩)] site ip 1 1 now
      = (false, [(bucketKey site ip, ⟨0, now⟩)]) := by
    simp [allow, getBucket, setBucket, hdiv0]
  rw [e1]
  simp only [e2, e3, e4, e5, f1, f2, f3]
  trivial

/-! ## Claim C2: the refill unit -/

/-- Claim C2 fails on the code: the refillMins parameter is dead. The first
conjunct shows the allow function is literally independent of the
refill-interval argument; the second evaluates the failing input of the
claim: with refillMins = 10 a bucket that has been empty for exactly one
minute is refilled and the call admitted, although no whole ten-minute
interval has elapsed, so the refill unit is the fixed one-minute unit, not
the refillIntervalMinutes argument. -/
theorem refill_unit_is_fixed_minute :
    (∀ (st : Buckets) (s i : String) (b r1 r2 : Int) (n : Nat),
      allow st s i b r1 n = allow st s i b r2 n) ∧
    (allow [(bucketKey ("s") ("i"), ⟨0, 0⟩)] ("s") ("i") 1 10 nsPerMinute).1 = true := by
  exact ⟨fun st s i b r1 r2 n => rfl, by decide⟩

/-! ## Claim C3: wildcard origin -/

/-- Claim C3 fails on the code (while the repository test named
TestHandleContactCORSWildcard expects it to hold): the CORS step compares the
request origin against each allowed entry for byte equality only, so a
literal wildcard entry is reflected only when the Origin header is itself the
wildcard string; for every other origin no permissive header is emitted. The
first conjunct evaluates the failing input, the second characterizes the
wildcard-entry behavior for every origin. -/
theorem wildcard_origin_not_reflected :
    corsHeaders [("*")] ("https://any.origin.com") = (none, none) ∧
    (∀ origin : String, corsHeaders [("*")] origin =
      if origin = "*" then (some origin, some ("Origin")) else (none, none)) := by
  constructor
  · decide
  · intro origin
    by_cases h : origin = "*"
    · subst h
      decide
    · have hb : (("*" : String) == origin) = false :=
        beq_eq_false_iff_ne.mpr (fun hx => h hx.symm)
      simp [corsHeaders, List.contains, hb, h]

/-! ## Claim C10: decoder selection -/

/-- A 415 status can only come out of the unsupported arm of the
content-type switch. -/
theorem handleCore_status_415 (cs : SiteCfg) (siteKey : String) (burst rmins : Int)
    (maxKB : Nat) (aj af : Bool) (dj : List Nat → Option ContactRequest)
    (df : String → List Nat → Option ContactRequest) (sendOk : Bool)
    (ip sig ct : String) (body : List Nat) (st : Buckets) (now : Nat)
    (h : (handleCore cs siteKey burst rmins maxKB aj af dj df sendOk ip sig ct body st now).1 = 415) :
    selectBranch ct aj af = DecodeBranch.unsupported := by
  cases hsel : selectBranch ct aj af
  case unsupported => rfl
  case json =>
    exfalso
    unfold handleCore at h
    cases hdj : dj body <;> simp only [hsel, hdj] at h <;> split_ifs at h <;> simp_all
  case form =>
    exfalso
    unfold handleCore at h
    cases hdf : df ct body <;> simp only [hsel, hdf] at h <;> split_ifs at h <;> simp_all

/-- Claim C10. With form decoding enabled, every request whose content type
does not select the JSON arm is sent to the form arm rather than rejected for
its media type (in particular text/plain, an absent content type, and
application/json with JSON disabled); the unsupported-media-type arm is
selected exactly when the JSON arm is not taken and form decoding is
disabled; and with form decoding enabled the handler never returns 415. -/
theorem decode_branch_selection :
    (∀ (ct : String) (aj : Bool), (hasPre ct ("application/json") && aj) = false →
      selectBranch ct aj true = DecodeBranch.form) ∧
    (selectBranch ("text/plain") true true = DecodeBranch.form ∧
     selectBranch ("") true true = DecodeBranch.form ∧
     selectBranch ("application/json") false true = DecodeBranch.form) ∧
    (∀ (ct : String) (aj af : Bool),
      selectBranch ct aj af = DecodeBranch.unsupported ↔
        ((hasPre ct ("application/json") && aj) = false ∧ af = false)) ∧
    (∀ (cs : SiteCfg) (siteKey : String) (burst rmins : Int) (maxKB : Nat) (aj : Bool)
      (dj : List Nat → Option ContactRequest) (df : String → List Nat → Option ContactRequest)
      (sendOk : Bool) (origin ip sig ct : String) (body : List Nat) (st : Buckets) (now : Nat),
      (handleContact cs siteKey burst rmins maxKB aj true dj df sendOk origin ip sig ct body st now).status ≠ 415) := by
  refine ⟨?_, ⟨by decide, by decide, by decide⟩, ?_, ?_⟩
  · intro ct aj h
    simp [selectBranch, h]
  · intro ct aj af
    cases hc : (hasPre ct ("application/json") && aj) <;> cases af <;> simp [selectBranch, hc]
  · intro cs siteKey burst rmins maxKB aj dj df sendOk origin ip sig ct body st now h
    have h2 : (handleCore cs siteKey burst rmins maxKB aj true dj df sendOk ip sig ct body st now).1 = 415 := h
    have h3 := handleCore_status_415 cs siteKey burst rmins maxKB aj true dj df sendOk ip sig ct body st now h2
    cases hc : (hasPre ct ("application/json") && aj) <;> simp [selectBranch, hc] at h3

/-- Witness for claim C10 at a concrete content type. -/
theorem decode_branch_selection_witness :
    selectBranch ("text/html") true true = DecodeBranch.form :=
  decode_branch_selection.1 ("text/html") true (by decide)

/-! ## Claim C8: CORS reflection and status independence -/

/-- Claim C8. For a tenant that declares allowed origins: an exactly matching
request origin is reflected verbatim in Access-Control-Allow-Origin together
with Vary: Origin; a non-matching origin yields neither header; and the
request origin never influences the resulting status — two requests identical
except for the Origin value (in particular one with a non-matching value)
produce the same success or failure status. -/
theorem cors_reflect_and_status_invariance :
    (∀ (allowed : List String) (origin : String), allowed ≠ [] →
      allowed.contains origin = true →
      corsHeaders allowed origin = (some origin, some ("Origin"))) ∧
    (∀ (allowed : List String) (origin : String), allowed.contains origin = false →
      corsHeaders allowed origin = (none, none)) ∧
    (∀ (cs : SiteCfg) (siteKey : String) (burst rmins : Int) (maxKB : Nat) (aj af : Bool)
      (dj : List Nat → Option ContactRequest) (df : String → List Nat → Option ContactRequest)
      (sendOk : Bool) (o1 o2 ip sig ct : String) (body : List Nat) (st : Buckets) (now : Nat),
      (handleContact cs siteKey burst rmins maxKB aj af dj df sendOk o1 ip sig ct body st now).status =
      (handleContact cs siteKey burst rmins maxKB aj af dj df sendOk o2 ip sig ct body st now).status) := by
  refine ⟨?_, ?_, ?_⟩
  · intro allowed origin hne hc
    cases allowed with
    | nil => exact absurd rfl hne
    | cons a as =>
        have hcond : (decide (0 < (a :: as).length) && (a :: as).contains origin) = true := by
          rw [hc]; simp
        simp only [corsHeaders, hcond]
        simp
  · intro allowed origin hc
    have hcond : (decide (0 < allowed.length) && allowed.contains origin) = false := by
      rw [hc]; simp
    simp only [corsHeaders, hcond]
    simp
  · intro cs siteKey burst rmins maxKB aj af dj df sendOk o1 o2 ip sig ct body st now
    rfl

/-- Witness for claim C8 at a concrete allowed-origin set. -/
theorem cors_reflect_and_status_invariance_witness :
    corsHeaders [("https://example.com")] ("https://example.com") =
      (some ("https://example.com"), some ("Origin")) :=
  cors_reflect_and_status_invariance.1 [("https://example.com")] ("https://example.com")
    (by decide) (by decide)

/-! ## Claim C5: validation -/

/-- Characterization of the first-at split. -/
theorem splitAtFirstAt_some_iff (cs : List Char) : ∀ l d : List Char,
    splitAtFirstAt cs = some (l, d) ↔ cs = l ++ '@' :: d ∧ '@' ∉ l := by
  induction cs with
  | nil =>
      intro l d
      simp only [splitAtFirstAt]
      constructor
      · intro h; exact absurd h (by simp)
      · rintro ⟨h, -⟩
        exact absurd h (by cases l <;> simp)
  | cons c rest ih =>
      intro l d
      by_cases hc : c = '@'
      · subst hc
        simp only [splitAtFirstAt, beq_self_eq_true, if_true]
        constructor
        · intro h
          have hp := Option.some.inj h
          have hl : [] = l := congrArg Prod.fst hp
          have hd : rest = d := congrArg Prod.snd hp
          subst hl; subst hd
          exact ⟨rfl, by simp⟩
        · rintro ⟨h1, h2⟩
          cases l with
          | nil =>
              simp only [List.nil_append] at h1
              injection h1 with _ hd
              rw [hd]
          | cons x l2 =>
              injection h1 with hx _
              exact absurd (by rw [← hx]; exact List.mem_cons_self _ _) h2
      · have hcb : (c == '@') = false := beq_eq_false_iff_ne.mpr hc
        simp only [splitAtFirstAt, hcb, Bool.false_eq_true, if_false]
        cases hs : splitAtFirstAt rest with
        | none =>
            simp only []
            constructor
            · intro h; exact absurd h (by simp)
            · rintro ⟨h1, h2⟩
              cases l with
              | nil =>
                  simp only [List.nil_append] at h1
                  injection h1 with hx _
                  exact absurd hx hc
              | cons x l2 =>
                  injection h1 with hx htl
                  have h2' : '@' ∉ l2 := fun hm => h2 (List.mem_cons_of_mem _ hm)
                  have hcontra := (ih l2 d).mpr ⟨htl, h2'⟩
                  rw [hs] at hcontra
                  exact absurd hcontra (by simp)
        | some pr =>
            obtain ⟨l0, d0⟩ := pr
            obtain ⟨hr, hnl0⟩ := (ih l0 d0).mp hs
            simp only []
            constructor
            · intro h
              have hp := Option.some.inj h
              have hl : c :: l0 = l := congrArg Prod.fst hp
              have hd : d0 = d := congrArg Prod.snd hp
              subst hl; subst hd
              refine ⟨by rw [hr]; simp, ?_⟩
              intro hm
              rcases List.mem_cons.mp hm with h' | h'
              · exact hc h'.symm
              · exact hnl0 h'
            · rintro ⟨h1, h2⟩
              cases l with
              | nil =>
                  simp only [List.nil_append] at h1
                  injection h1 with hx _
                  exact absurd hx hc
              | cons x l2 =>
                  injection h1 with hx htl
                  have h2' : '@' ∉ l2 := fun hm => h2 (List.mem_cons_of_mem _ hm)
                  have heq := (ih l2 d).mpr ⟨htl, h2'⟩
                  rw [hs] at heq
                  have hp := Option.some.inj heq
                  have hl : l0 = l2 := congrArg Prod.fst hp
                  have hd : d0 = d := congrArg Prod.snd hp
                  subst hx
                  rw [hl, hd]

/-- Characterization of dotBeforeLast: a dot occurs with at least one later
character. -/
theorem dotBeforeLast_iff (xs : List Char) :
    dotBeforeLast xs = true ↔ ∃ a b, xs = a ++ '.' :: b ∧ b ≠ [] := by
  induction xs with
  | nil =>
      constructor
      · intro h; exact absurd h (by simp [dotBeforeLast])
      · rintro ⟨a, b, hab, hb⟩
        exact absurd hab (by cases a <;> simp)
  | cons c tl ih =>
      cases tl with
      | nil =>
          constructor
          · intro h; exact absurd h (by simp [dotBeforeLast])
          · rintro ⟨a, b, hab, hb⟩
            exfalso
            cases a with
            | nil =>
                injection hab with h1 h2
                exact hb h2.symm
            | cons x t =>
                injection hab with h1 h2
                exact absurd h2 (by cases t <;> simp)
      | cons c2 rest =>
          rw [show dotBeforeLast (c :: c2 :: rest) = (c == '.' || dotBeforeLast (c2 :: rest)) from rfl]
          rw [Bool.or_eq_true, ih]
          constructor
          · rintro (hc | ⟨a, b, hab, hb⟩)
            · have hcd : c = '.' := by simpa using hc
              exact ⟨[], c2 :: rest, by simp [hcd], by simp⟩
            · exact ⟨c :: a, b, by simp [hab], hb⟩
          · rintro ⟨a, b, hab, hb⟩
            cases a with
            | nil =>
                injection hab with h1 h2
                exact Or.inl (by simp [h1, h2])
            | cons x t =>
                injection hab with h1 h2
                exact Or.inr ⟨t, b, h2, hb⟩

/-- Characterization of hasInnerDot: the list splits around a dot with
non-empty parts on both sides. -/
theorem hasInnerDot_iff (d : List Char) :
    hasInnerDot d = true ↔ ∃ d1 d2, d = d1 ++ '.' :: d2 ∧ d1 ≠ [] ∧ d2 ≠ [] := by
  cases d with
  | nil =>
      constructor
      · intro h; exact absurd h (by simp [hasInnerDot])
      · rintro ⟨d1, d2, h, h1, h2⟩
        exact absurd h (by cases d1 <;> simp)
  | cons c rest =>
      rw [show hasInnerDot (c :: rest) = dotBeforeLast rest from rfl, dotBeforeLast_iff]
      constructor
      · rintro ⟨a, b, hab, hb⟩
        exact ⟨c :: a, b, by simp [hab], by simp, hb⟩
      · rintro ⟨d1, d2, h, h1, h2⟩
        cases d1 with
        | nil => exact absurd rfl h1
        | cons x t =>
            injection h with hx ht
            exact ⟨t, d2, ht, h2⟩

/-- The executable matcher agrees with the declarative reading of the
regular expression. -/
theorem emailRegexMatch_iff (s : String) :
    emailRegexMatch s = true ↔ emailPatternProp s := by
  unfold emailRegexMatch emailPatternProp
  cases hs : splitAtFirstAt s.data with
  | none =>
      simp only [hs]
      constructor
      · intro h; exact absurd h (by simp)
      · rintro ⟨l, d1, d2, h, hl, h1, h2, hal, had⟩
        have hna : '@' ∉ l := by
          intro hm
          have := hal _ hm
          simp [atomChar] at this
        have hcontra := (splitAtFirstAt_some_iff s.data l (d1 ++ '.' :: d2)).mpr ⟨h, hna⟩
        rw [hs] at hcontra
        exact absurd hcontra (by simp)
  | some pr =>
      obtain ⟨l0, d0⟩ := pr
      obtain ⟨hsplit, hnotat⟩ := (splitAtFirstAt_some_iff s.data l0 d0).mp hs
      simp only [hs, Bool.and_eq_true, Bool.not_eq_true', List.isEmpty_eq_false,
        List.all_eq_true]
      constructor
      · rintro ⟨⟨⟨⟨hne, hall⟩, hdne⟩, hdall⟩, hdot⟩
        obtain ⟨dd1, dd2, hdd, hd1, hd2⟩ := (hasInnerDot_iff d0).mp hdot
        refine ⟨l0, dd1, dd2, ?_, hne, hd1, hd2, hall, ?_⟩
        · rw [hsplit, hdd]
        · rw [← hdd]; exact hdall
      · rintro ⟨l, d1, d2, h, hl, h1, h2, hal, had⟩
        have hna : '@' ∉ l := by
          intro hm
          have := hal _ hm
          simp [atomChar] at this
        have heq := (splitAtFirstAt_some_iff s.data l (d1 ++ '.' :: d2)).mpr ⟨h, hna⟩
        rw [hs] at heq
        have hp := Option.some.inj heq
        have hle : l0 = l := congrArg Prod.fst hp
        have hde : d0 = d1 ++ '.' :: d2 := congrArg Prod.snd hp
        subst hle
        refine ⟨⟨⟨⟨hl, hal⟩, ?_⟩, ?_⟩, ?_⟩
        · rw [hde]; cases d1 <;> simp
        · rw [hde]; exact had
        · exact (hasInnerDot_iff d0).mpr ⟨d1, d2, hde, h1, h2⟩

/-- Counterexample to claim C5 as stated. For the submission with name A,
email a@b., message hi, and empty honeypot, every check of the claim passes
under its own description of the email pattern (the domain b. is non-white
space and contains a dot, as emailSpecDescribed confirms), yet the code
rejects the submission, because the regular expression additionally requires
at least one character after a dot. -/
theorem validation_email_gloss_false :
    validationRejects ⟨("A"), ("a@b."), ("hi"), ("")⟩ = true ∧
    (("" : String) = "") ∧ (("A" : String) ≠ "") ∧
    emailSpecDescribed ("a@b.") = true ∧
    trimSpaceGo ("hi") ≠ ("") := by
  exact ⟨by decide, rfl, by decide, by decide, by decide⟩

/-- Claim C5, amended: validation rejects exactly when the honeypot is
non-empty, the name is empty (no trimming, so white space passes), the email
fails the regular expression — whose domain must carry a dot with at least
one non-at, non-white space character on each side, not merely contain a
dot — or the message is empty after trimming; any non-empty honeypot value
rejects regardless of the other fields; and a validation failure surfaces as
the single undifferentiated 400 rejection of the handler. -/
theorem validation_reject_characterization :
    (∀ p : ContactRequest, validationRejects p = true ↔
      (p.website ≠ "" ∨ p.name = "" ∨ ¬ emailPatternProp p.email ∨ trimSpaceGo p.message = "")) ∧
    (∀ n e m w : String, w ≠ "" → validationRejects ⟨n, e, m, w⟩ = true) ∧
    (∀ (cs : SiteCfg) (siteKey : String) (burst rmins : Int) (maxKB : Nat) (aj af : Bool)
      (dj : List Nat → Option ContactRequest) (df : String → List Nat → Option ContactRequest)
      (sendOk : Bool) (origin ip sig ct : String) (body : List Nat) (st : Buckets) (now : Nat)
      (p : ContactRequest),
      (allow st siteKey ip burst rmins now).1 = true →
      body.length ≤ maxKB * 1024 →
      cs.secret = "" →
      selectBranch ct aj af = DecodeBranch.json →
      dj body = some p →
      validationRejects p = true →
      (handleContact cs siteKey burst rmins maxKB aj af dj df sendOk origin ip sig ct body st now).status = 400) := by
  refine ⟨?_, ?_, ?_⟩
  · intro p
    have he : (emailRegexMatch p.email = false) ↔ ¬ emailPatternProp p.email := by
      rw [← emailRegexMatch_iff]
      constructor
      · intro h hcontra; rw [h] at hcontra; exact absurd hcontra (by simp)
      · intro h; cases hb : emailRegexMatch p.email
        · rfl
        · exact absurd hb h
    rw [validationRejects]
    simp only [Bool.or_eq_true, bne_iff_ne, beq_iff_eq, Bool.not_eq_true']
    rw [he]
    tauto
  · intro n e m w h
    simp [validationRejects, bne_iff_ne, h]
  · intro cs siteKey burst rmins maxKB aj af dj df sendOk origin ip sig ct body st now p
      h1 h2 h3 h4 h5 h6
    have hsize : ¬(maxKB * 1024 < body.length) := not_lt.mpr h2
    show (handleCore cs siteKey burst rmins maxKB aj af dj df sendOk ip sig ct body st now).1 = 400
    unfold handleCore
    simp [h1, h3, h4, h5, h6, hsize]

/-- Witness for the amended claim C5: a filled honeypot rejects. -/
theorem validation_reject_characterization_witness :
    validationRejects ⟨("Bob"), ("bob@example.com"), ("Hi"), ("spam")⟩ = true :=
  validation_reject_characterization.2.1 ("Bob") ("bob@example.com") ("Hi") ("spam") (by decide)

/-! ## Claim C4: authentication -/

/-- SHA-256 digests are byte lists: every entry is below 256. -/
theorem sha256_bytes_lt (msg : List Nat) : ∀ x ∈ sha256 msg, x < 256 := by
  intro x hx
  unfold sha256 at hx
  obtain ⟨l, hl, hxl⟩ := List.mem_flatten.mp hx
  obtain ⟨w, hw, rfl⟩ := List.mem_map.mp hl
  simp [be32] at hxl
  rcases hxl with h | h | h | h <;> omega

/-- HMAC-SHA256 values are byte lists. -/
theorem hmacSha256_bytes_lt (key msg : List Nat) : ∀ x ∈ hmacSha256 key msg, x < 256 := by
  intro x hx
  unfold hmacSha256 at hx
  exact sha256_bytes_lt _ x hx

/-- Hexadecimal digits are fixed by ASCII lower-casing. -/
theorem lowChar_hexDigit : ∀ n, n < 16 → lowChar (hexDigit n) = hexDigit n := by decide

/-- Hexadecimal digits are injective. -/
theorem hexDigit_inj : ∀ a, a < 16 → ∀ b, b < 16 → hexDigit a = hexDigit b → a = b := by decide

/-- The hex encoding of a digest is already lower case. -/
theorem asciiLower_hexEncode (bs : List Nat) : asciiLower (hexEncode bs) = hexEncode bs := by
  suffices h : ((bs.map (fun b => [hexDigit (b / 16 % 16), hexDigit (b % 16)])).flatten).map lowChar
      = (bs.map (fun b => [hexDigit (b / 16 % 16), hexDigit (b % 16)])).flatten by
    unfold asciiLower hexEncode
    rw [show (String.mk ((bs.map (fun b => [hexDigit (b / 16 % 16), hexDigit (b % 16)])).flatten)).data
        = (bs.map (fun b => [hexDigit (b / 16 % 16), hexDigit (b % 16)])).flatten from rfl, h]
  induction bs with
  | nil => rfl
  | cons b tl ih =>
      simp only [List.map_cons, List.flatten_cons, List.map_append, ih]
      rw [lowChar_hexDigit _ (Nat.mod_lt _ (by norm_num)), lowChar_hexDigit _ (Nat.mod_lt _ (by norm_num))]
      simp

/-- Hex encoding is injective on byte lists. -/
theorem hexEncode_inj : ∀ bs1 bs2 : List Nat, (∀ x ∈ bs1, x < 256) → (∀ x ∈ bs2, x < 256) →
    hexEncode bs1 = hexEncode bs2 → bs1 = bs2 := by
  intro bs1
  induction bs1 with
  | nil =>
      intro bs2 h1 h2 h
      cases bs2 with
      | nil => rfl
      | cons b tl =>
          have hd := congrArg String.data h
          simp [hexEncode] at hd
  | cons b tl ih =>
      intro bs2 h1 h2 h
      cases bs2 with
      | nil =>
          have hd := congrArg String.data h
          simp [hexEncode] at hd
      | cons b2 tl2 =>
          have hd := congrArg String.data h
          simp only [hexEncode, List.map_cons, List.flatten_cons, List.cons_append,
            List.nil_append] at hd
          injection hd with e1 hd2
          injection hd2 with e2 hd3
          have hb1 := hexDigit_inj _ (Nat.mod_lt _ (by norm_num)) _ (Nat.mod_lt _ (by norm_num)) e1
          have hb2 := hexDigit_inj _ (Nat.mod_lt _ (by norm_num)) _ (Nat.mod_lt _ (by norm_num)) e2
          have hblt := h1 b (List.mem_cons_self _ _)
          have hblt2 := h2 b2 (List.mem_cons_self _ _)
          have hb : b = b2 := by omega
          have htl : tl = tl2 := by
            refine ih tl2 (fun x hx => h1 x (List.mem_cons_of_mem _ hx))
              (fun x hx => h2 x (List.mem_cons_of_mem _ hx)) ?_
            unfold hexEncode
            rw [hd3]
          rw [hb, htl]

/-- With a non-empty secret and a non-empty signature, verification succeeds
exactly when the lower-cased signature equals the (lower-case) hex encoding
of the HMAC of the body under the secret. -/
theorem verifyHMAC_true_iff (body : List Nat) (secret sig : String)
    (h1 : secret ≠ "") (h2 : sig ≠ "") :
    verifyHMAC body secret sig = true ↔
      asciiLower sig = hexEncode (hmacSha256 (utf8Bytes secret) body) := by
  have b1 : (secret == "") = false := beq_eq_false_iff_ne.mpr h1
  have b2 : (sig == "") = false := beq_eq_false_iff_ne.mpr h2
  simp only [verifyHMAC, b1, b2, Bool.or_self, Bool.false_eq_true, if_false]
  rw [asciiLower_hexEncode, beq_iff_eq]
  exact eq_comm

/-- The status of the handler is 401 exactly when the request was admitted by
the rate limiter, fits the size ceiling, the tenant has a secret, and
verification fails. -/
theorem handleCore_401_iff (cs : SiteCfg) (siteKey : String) (burst rmins : Int)
    (maxKB : Nat) (aj af : Bool) (dj : List Nat → Option ContactRequest)
    (df : String → List Nat → Option ContactRequest) (sendOk : Bool)
    (ip sig ct : String) (body : List Nat) (st : Buckets) (now : Nat) :
    (handleCore cs siteKey burst rmins maxKB aj af dj df sendOk ip sig ct body st now).1 = 401 ↔
      ((allow st siteKey ip burst rmins now).1 = true ∧ ¬(maxKB * 1024 < body.length) ∧
        cs.secret ≠ "" ∧ verifyHMAC body cs.secret sig = false) := by
  unfold handleCore
  by_cases r1 : (allow st siteKey ip burst rmins now).1 = true
  · by_cases hs2 : maxKB * 1024 < body.length
    · simp [r1, hs2]
    · by_cases hsec : cs.secret = ""
      · have hcond : ((cs.secret != "") && (!(verifyHMAC body cs.secret sig))) = false := by
          simp [hsec]
        cases hsel : selectBranch ct aj af with
        | json =>
          cases hdj : dj body <;>
            simp [r1, hs2, hcond, hsel, hdj, hsec] <;> split_ifs <;> simp
        | form =>
          cases hdf : df ct body <;>
            simp [r1, hs2, hcond, hsel, hdf, hsec] <;> split_ifs <;> simp
        | unsupported =>
          simp [r1, hs2, hcond, hsel, hsec]
      · by_cases hvf : verifyHMAC body cs.secret sig = true
        · have hcond : ((cs.secret != "") && (!(verifyHMAC body cs.secret sig))) = false := by
            simp [hvf]
          cases hsel : selectBranch ct aj af with
          | json =>
            cases hdj : dj body <;>
              simp [r1, hs2, hcond, hsel, hdj, hvf] <;> split_ifs <;> simp
          | form =>
            cases hdf : df ct body <;>
              simp [r1, hs2, hcond, hsel, hdf, hvf] <;> split_ifs <;> simp
          | unsupported =>
            simp [r1, hs2, hcond, hsel, hvf]
        · have hvf2 : verifyHMAC body cs.secret sig = false := by
            cases hb : verifyHMAC body cs.secret sig
            · rfl
            · exact absurd hb hvf
          have hcond : ((cs.secret != "") && (!(verifyHMAC body cs.secret sig))) = true := by
            simp [hvf2, bne_iff_ne, hsec]
          simp [r1, hs2, hcond, hsec, hvf2]
  · have r1f : (allow st siteKey ip burst rmins now).1 = false := by
      cases hb : (allow st siteKey ip burst rmins now).1
      · rfl
      · exact absurd hb r1
    simp [r1f]

set_option maxRecDepth 100000 in
/-- The SHA-256 embedding reproduces the FIPS 180-4 test vector for the empty
message. -/
theorem sha256_empty_vector :
    hexEncode (sha256 []) = "e3b0c44298fc1c149afbf4c8996fb92427ae41e4649b934ca495991b7852b855" := by
  decide

set_option maxRecDepth 100000 in
/-- The HMAC-SHA256 embedding reproduces the RFC 4231-style test vector for
key key and the quick-brown-fox message. -/
theorem hmacSha256_fox_vector :
    hexEncode (hmacSha256 (utf8Bytes ("key"))
      (utf8Bytes ("The quick brown fox jumps over the lazy dog")))
    = "f7bc83f430538424b13298e6aa6fb143ef4d59a14946175997479dbc2d1a3cd8" := by
  decide

/-- Claim C4. Verification returns false when the secret or the signature is
empty; with both present it succeeds exactly when the signature equals,
case-insensitively on the hex encoding, the hex HMAC-SHA256 of the exact raw
body bytes keyed by the secret; signature casing never changes the outcome;
any change of the body that alters its MAC (as any single-byte mutation does,
short of an HMAC-SHA256 collision, none of which is known) makes verification
fail; and the handler returns 401 exactly when the request was admitted, fits
the size ceiling, the tenant has a non-empty secret, and verification fails —
so tenants without a secret are never rejected for authentication reasons. -/
theorem hmac_auth_spec (body : List Nat) (secret sig : String)
    (cs : SiteCfg) (siteKey : String) (burst rmins : Int) (maxKB : Nat) (aj af : Bool)
    (dj : List Nat → Option ContactRequest) (df : String → List Nat → Option ContactRequest)
    (sendOk : Bool) (origin ip ct : String) (st : Buckets) (now : Nat) :
    (secret = "" → verifyHMAC body secret sig = false) ∧
    (sig = "" → verifyHMAC body secret sig = false) ∧
    (secret ≠ "" → sig ≠ "" →
      (verifyHMAC body secret sig = true ↔
        asciiLower sig = hexEncode (hmacSha256 (utf8Bytes secret) body))) ∧
    (∀ sig2 : String, asciiLower sig2 = asciiLower sig →
      verifyHMAC body secret sig2 = verifyHMAC body secret sig) ∧
    (∀ body2 : List Nat,
      hmacSha256 (utf8Bytes secret) body2 ≠ hmacSha256 (utf8Bytes secret) body →
      verifyHMAC body secret sig = true → verifyHMAC body2 secret sig = false) ∧
    ((handleContact cs siteKey burst rmins maxKB aj af dj df sendOk origin ip sig ct body st now).status = 401 ↔
      ((allow st siteKey ip burst rmins now).1 = true ∧ body.length ≤ maxKB * 1024 ∧
        cs.secret ≠ "" ∧ verifyHMAC body cs.secret sig = false)) ∧
    (cs.secret = "" →
      (handleContact cs siteKey burst rmins maxKB aj af dj df sendOk origin ip sig ct body st now).status ≠ 401) := by
  have hiff := handleCore_401_iff cs siteKey burst rmins maxKB aj af dj df sendOk ip sig ct body st now
  refine ⟨?_, ?_, ?_, ?_, ?_, ?_, ?_⟩
  · intro h; simp [verifyHMAC, h]
  · intro h; simp [verifyHMAC, h]
  · intro h1 h2; exact verifyHMAC_true_iff body secret sig h1 h2
  · intro sig2 h
    have hlen : sig2.data.length = sig.data.length := by
      have h2 := congrArg (fun t => t.data.length) h
      simpa [asciiLower] using h2
    have hempty : sig2 = "" ↔ sig = "" := by
      constructor
      · intro he
        rw [he] at hlen
        have : sig.data = [] := List.length_eq_zero.mp (by simpa using hlen.symm)
        cases sig
        simp_all
      · intro he
        rw [he] at hlen
        have : sig2.data = [] := List.length_eq_zero.mp (by simpa using hlen)
        cases sig2
        simp_all
    by_cases hsec : secret = ""
    · simp [verifyHMAC, hsec]
    · by_cases hsig : sig = ""
      · have h0 : sig2 = "" := hempty.mpr hsig
        simp [verifyHMAC, hsig, h0]
      · have hsig2 : sig2 ≠ "" := fun hx => hsig (hempty.mp hx)
        have b1 : (secret == "") = false := beq_eq_false_iff_ne.mpr hsec
        have b2 : (sig == "") = false := beq_eq_false_iff_ne.mpr hsig
        have b3 : (sig2 == "") = false := beq_eq_false_iff_ne.mpr hsig2
        simp only [verifyHMAC, b1, b2, b3, Bool.or_self, Bool.false_eq_true, if_false, h]
  · intro body2 hm hv
    by_cases hsec : secret = ""
    · simp [verifyHMAC, hsec] at hv
    · by_cases hsig : sig = ""
      · simp [verifyHMAC, hsig] at hv
      · have hs := (verifyHMAC_true_iff body secret sig hsec hsig).mp hv
        cases hb : verifyHMAC body2 secret sig
        · rfl
        · exfalso
          have hs2 := (verifyHMAC_true_iff body2 secret sig hsec hsig).mp hb
          have hhex : hexEncode (hmacSha256 (utf8Bytes secret) body2)
              = hexEncode (hmacSha256 (utf8Bytes secret) body) := by
            rw [← hs, ← hs2]
          exact hm (hexEncode_inj _ _ (hmacSha256_bytes_lt _ _) (hmacSha256_bytes_lt _ _) hhex)
  · rw [show (handleContact cs siteKey burst rmins maxKB aj af dj df sendOk origin ip sig ct body st now).status
        = (handleCore cs siteKey burst rmins maxKB aj af dj df sendOk ip sig ct body st now).1 from rfl]
    rw [hiff, not_lt]
  · intro hsec h
    rw [show (handleContact cs siteKey burst rmins maxKB aj af dj df sendOk origin ip sig ct body st now).status
        = (handleCore cs siteKey burst rmins maxKB aj af dj df sendOk ip sig ct body st now).1 from rfl] at h
    have := (hiff.mp h).2.2.1
    exact this hsec

set_option maxRecDepth 1000000 in
/-- Witness for claim C4: the valid signature of the one-byte body 0x30 under
secret k (the actual hex HMAC-SHA256 value) verifies that body, and after
mutating the byte to 0x31 — which changes the MAC — verification fails. -/
theorem hmac_auth_spec_witness :
    verifyHMAC [49] ("k")
      ("b44d10ba62abf73965e6b4baf77752ad92b11163e84e0e7f576105023c361523") = false :=
  (hmac_auth_spec [48] ("k")
      ("b44d10ba62abf73965e6b4baf77752ad92b11163e84e0e7f576105023c361523")
      ⟨("acme"), ("ops@example.com"), [], ("[Contact]"), (""), ("noreply@example.com")⟩
      ("acme") 1 1 1 true true (fun _ => none) (fun _ _ => none) true ("") ("1.2.3.4")
      ("application/json") [] 0).2.2.2.2.1 [49] (by decide) (by decide)

/-! ## Claim C7: JSON and form round-trip -/

/-- When the handler hands a message to the sender, that message is the
composition of the decoded record of the selected branch with the site
configuration and the client ip. -/
theorem handleCore_outMail (cs : SiteCfg) (siteKey : String) (burst rmins : Int)
    (maxKB : Nat) (aj af : Bool) (dj : List Nat → Option ContactRequest)
    (df : String → List Nat → Option ContactRequest) (sendOk : Bool)
    (ip sig ct : String) (body : List Nat) (st : Buckets) (now : Nat) (e : EmailMsg)
    (h : (handleCore cs siteKey burst rmins maxKB aj af dj df sendOk ip sig ct body st now).2.1 = some e) :
    ∃ p : ContactRequest,
      ((selectBranch ct aj af = DecodeBranch.json ∧ dj body = some p) ∨
       (selectBranch ct aj af = DecodeBranch.form ∧ df ct body = some p)) ∧
      e = buildEmail cs ip p := by
  unfold handleCore at h
  by_cases r1 : (allow st siteKey ip burst rmins now).1 = true
  · by_cases hs2 : maxKB * 1024 < body.length
    · simp [r1, hs2] at h
    · cases hc : ((cs.secret != "") && (!(verifyHMAC body cs.secret sig)))
      · cases hsel : selectBranch ct aj af with
        | json =>
            cases hdj : dj body with
            | none => simp [r1, hs2, hc, hsel, hdj] at h
            | some p =>
                cases hval : validationRejects p with
                | true => simp [r1, hs2, hc, hsel, hdj, hval] at h
                | false =>
                    simp only [r1, hs2, hc, hsel, hdj, hval] at h
                    simp at h
                    exact ⟨p, Or.inl ⟨rfl, rfl⟩, h.symm⟩
        | form =>
            cases hdf : df ct body with
            | none => simp [r1, hs2, hc, hsel, hdf] at h
            | some p =>
                cases hval : validationRejects p with
                | true => simp [r1, hs2, hc, hsel, hdf, hval] at h
                | false =>
                    simp only [r1, hs2, hc, hsel, hdf, hval] at h
                    simp at h
                    exact ⟨p, Or.inr ⟨rfl, rfl⟩, h.symm⟩
        | unsupported => simp [r1, hs2, hc, hsel] at h
      · simp [r1, hs2, hc] at h
  · have r1f : (allow st siteKey ip burst rmins now).1 = false := by
      cases hb : (allow st siteKey ip burst rmins now).1
      · rfl
      · exact absurd hb r1
    simp [r1f] at h

/-- Claim C7. A decoded JSON submission and a decoded form submission
carrying the same name, email, and message values produce byte-identical
composed outbound messages: same sender, same recipient, same subject, same
reply-to, and same formatted body text. -/
theorem json_form_equal_outbound (cs : SiteCfg) (siteKey : String) (burst rmins : Int)
    (maxKB : Nat) (dj : List Nat → Option ContactRequest)
    (df : String → List Nat → Option ContactRequest) (sendOk : Bool)
    (o1 o2 ip sig1 sig2 : String) (bodyJ bodyF : List Nat) (st1 st2 : Buckets)
    (now1 now2 : Nat) (p q : ContactRequest) (e1 e2 : EmailMsg)
    (hdj : dj bodyJ = some p)
    (hdf : df ("application/x-www-form-urlencoded") bodyF = some q)
    (hn : p.name = q.name) (he : p.email = q.email) (hm : p.message = q.message)
    (h1 : (handleContact cs siteKey burst rmins maxKB true true dj df sendOk o1 ip sig1
        ("application/json") bodyJ st1 now1).outMail = some e1)
    (h2 : (handleContact cs siteKey burst rmins maxKB true true dj df sendOk o2 ip sig2
        ("application/x-www-form-urlencoded") bodyF st2 now2).outMail = some e2) :
    e1 = e2 := by
  have g1 := handleCore_outMail cs siteKey burst rmins maxKB true true dj df sendOk ip sig1
    ("application/json") bodyJ st1 now1 e1 h1
  have g2 := handleCore_outMail cs siteKey burst rmins maxKB true true dj df sendOk ip sig2
    ("application/x-www-form-urlencoded") bodyF st2 now2 e2 h2
  obtain ⟨p1, hbr1, hep1⟩ := g1
  obtain ⟨q1, hbr2, heq1⟩ := g2
  have hp1 : p1 = p := by
    rcases hbr1 with ⟨-, hd⟩ | ⟨hf, -⟩
    · rw [hdj] at hd; exact (Option.some.inj hd).symm
    · exact absurd hf (by decide)
  have hq1 : q1 = q := by
    rcases hbr2 with ⟨hf, -⟩ | ⟨-, hd⟩
    · exact absurd hf (by decide)
    · rw [hdf] at hd; exact (Option.some.inj hd).symm
  rw [hep1, heq1, hp1, hq1]
  unfold buildEmail
  rw [hn, he, hm]

/-- Witness for claim C7 at a concrete submission decoded through both
branches. -/
theorem json_form_equal_outbound_witness :
    buildEmail ⟨("acme"), ("ops@example.com"), [], ("[Contact]"), (""), ("noreply@example.com")⟩
        ("1.2.3.4") ⟨("Alice"), ("alice@example.com"), ("Hello there"), ("")⟩
      = buildEmail ⟨("acme"), ("ops@example.com"), [], ("[Contact]"), (""), ("noreply@example.com")⟩
        ("1.2.3.4") ⟨("Alice"), ("alice@example.com"), ("Hello there"), ("")⟩ :=
  json_form_equal_outbound
    ⟨("acme"), ("ops@example.com"), [], ("[Contact]"), (""), ("noreply@example.com")⟩
    ("acme") 1 1 1024
    (fun _ => some ⟨("Alice"), ("alice@example.com"), ("Hello there"), ("")⟩)
    (fun _ _ => some ⟨("Alice"), ("alice@example.com"), ("Hello there"), ("")⟩)
    true ("") ("") ("1.2.3.4") ("") ("") [] [] [] [] 0 0
    ⟨("Alice"), ("alice@example.com"), ("Hello there"), ("")⟩
    ⟨("Alice"), ("alice@example.com"), ("Hello there"), ("")⟩
    (buildEmail ⟨("acme"), ("ops@example.com"), [], ("[Contact]"), (""), ("noreply@example.com")⟩
        ("1.2.3.4") ⟨("Alice"), ("alice@example.com"), ("Hello there"), ("")⟩)
    (buildEmail ⟨("acme"), ("ops@example.com"), [], ("[Contact]"), (""), ("noreply@example.com")⟩
        ("1.2.3.4") ⟨("Alice"), ("alice@example.com"), ("Hello there"), ("")⟩)
    rfl rfl rfl rfl rfl (by decide) (by decide)

/-- Witness for claim C9 at a concrete bucket created with burst 2. -/
theorem bucket_tokens_bounded_witness :
    0 ≤ (Bucket.mk 2 0).tokens ∧ (Bucket.mk 2 0).tokens ≤ 2 :=
  bucket_tokens_bounded 2 [] ("s") ("i") 1 0 (by decide)
    (fun _ _ h => Option.noConfusion h)
    (bucketKey ("s") ("i")) ⟨2, 0⟩ (by decide)
